import Mathlib

/- Verification of the computational core of the H2 1s LCAO electron-density
   notebook (h2_1s_density.ipynb).  The notebook's computational part is a
   pure scalar field: an overlap integral `S`, a Euclidean `distance` helper,
   and the density evaluated over a 2D meshgrid (normalized) and over a 1D
   line at y = 0 (unnormalized), with the orbital exponent fixed to
   `alpha = 1.24` and grids built by `np.linspace(-2, 2, 100)`.

   The embedding is over ℝ.  The notebook reads `alpha` as a module-level
   constant; here it is passed explicitly as the first argument of each
   function (the spec's operations `overlap(alpha, R)`, `evaluate2D(alpha,
   R, xRange, yRange)`, `evaluate1D(alpha, R, xRange)` quantify over it),
   and the notebook's behaviour is recovered by instantiating it at 1.24. -/

namespace H2

/-- Euclidean norm helper; embeds `distance(x, y) = np.sqrt(x ** 2 + y ** 2)`
from the notebook. -/
noncomputable def distance (x y : ℝ) : ℝ := Real.sqrt (x ^ 2 + y ^ 2)

/-- Overlap integral; embeds the notebook's
`def S(R): w = alpha * R; w2 = w * w; return math.exp(-w) * (1 + w + w2 / 3)`
with the global `alpha` made an explicit first argument `a`. -/
noncomputable def S (a R : ℝ) : ℝ :=
  let w := a * R
  let w2 := w * w
  Real.exp (-w) * (1 + w + w2 / 3)

/-- Pointwise 2D density; embeds the notebook's
`Z = (alpha**3 / (math.pi * (1 + S(R)))) *
    (np.exp(-alpha * ra) + np.exp(-alpha * rb)) ** 2`
with `ra = distance(X - R/2, Y)` and `rb = distance(X + R/2, Y)`,
evaluated at a single grid point `(x, y)`. -/
noncomputable def density2D (a R x y : ℝ) : ℝ :=
  let ra := distance (x - R / 2) y
  let rb := distance (x + R / 2) y
  a ^ 3 / (Real.pi * (1 + S a R)) * (Real.exp (-a * ra) + Real.exp (-a * rb)) ^ 2

/-- Pointwise 1D density; embeds the notebook's
`density_1d = (np.exp(-alpha * ra_1d) + np.exp(-alpha * rb_1d)) ** 2`
with `ra_1d = distance(x - R/2, 0)` and `rb_1d = distance(x + R/2, 0)`. -/
noncomputable def density1D (a R x : ℝ) : ℝ :=
  let ra := distance (x - R / 2) 0
  let rb := distance (x + R / 2) 0
  (Real.exp (-a * ra) + Real.exp (-a * rb)) ^ 2

/-- Model of `np.linspace(lo, hi, n)`: `n` evenly spaced samples from `lo`
to `hi`, endpoints included (sample `i` is `lo + (hi - lo) * i / (n - 1)`). -/
noncomputable def linspace (lo hi : ℝ) (n : ℕ) : List ℝ :=
  (List.range n).map (fun i => lo + (hi - lo) * (i : ℝ) / ((n : ℝ) - 1))

/-- The 2D evaluation `evaluate2D`: the notebook builds `X, Y = meshgrid(x, y)`
and computes `Z` vectorized, so row `i`, column `j` of the result is the
density at `(x[j], y[i])`. -/
noncomputable def evaluate2D (a R : ℝ) (xs ys : List ℝ) : List (List ℝ) :=
  ys.map (fun y => xs.map (fun x => density2D a R x y))

/-- The 1D evaluation `evaluate1D`: the notebook computes `density_1d`
vectorized over the x samples at y = 0. -/
noncomputable def evaluate1D (a R : ℝ) (xs : List ℝ) : List ℝ :=
  xs.map (fun x => density1D a R x)

/-- The overlap as a function of the single variable `w = alpha * R`. -/
noncomputable def Sw (w : ℝ) : ℝ := Real.exp (-w) * (1 + w + w ^ 2 / 3)

/-- Raw 1D amplitude `exp(-alpha*ra) + exp(-alpha*rb)` at y = 0, with the
distances written as absolute values; the 1D density is its square. -/
noncomputable def amp (a R x : ℝ) : ℝ :=
  Real.exp (-a * |x - R / 2|) + Real.exp (-a * |x + R / 2|)

/-! Basic helper lemmas about `distance` and `S`. -/

/-- One-dimensional distance is the absolute value. -/
lemma distance_zero_right (t : ℝ) : distance t 0 = |t| := by
  simp [distance, Real.sqrt_sq_eq_abs]

/-- Reflecting the first coordinate leaves the distance unchanged. -/
lemma distance_neg_left (t y : ℝ) : distance (-t) y = distance t y := by
  simp [distance, neg_sq]

/-- Unfolded closed form of `S` with the quadratic term written as a power. -/
lemma S_eq (a R : ℝ) :
    S a R = Real.exp (-(a * R)) * (1 + a * R + (a * R) ^ 2 / 3) := by
  simp only [S]
  ring

lemma S_eq_Sw (a R : ℝ) : S a R = Sw (a * R) := by
  rw [S_eq, Sw]

lemma Sw_hasDerivAt (w : ℝ) :
    HasDerivAt Sw (-(Real.exp (-w) * (w + w ^ 2) / 3)) w := by
  have h1 : HasDerivAt (fun t : ℝ => Real.exp (-t)) (-Real.exp (-w)) w := by
    simpa using (Real.hasDerivAt_exp (-w)).comp w ((hasDerivAt_id w).neg)
  have h2 : HasDerivAt (fun t : ℝ => 1 + t + t ^ 2 / 3) (1 + 2 * w / 3) w := by
    have hp : HasDerivAt (fun t : ℝ => t ^ 2) (2 * w) w := by
      simpa using hasDerivAt_pow 2 w
    have := ((hasDerivAt_const w (1 : ℝ)).add (hasDerivAt_id w)).add (hp.div_const 3)
    simpa [mul_comm, add_comm] using this
  have h3 := h1.mul h2
  have hfun : Sw = fun t : ℝ => Real.exp (-t) * (1 + t + t ^ 2 / 3) := rfl
  rw [hfun]
  convert h3 using 1
  ring

lemma Sw_zero : Sw 0 = 1 := by
  simp [Sw]

lemma Sw_antitoneOn : AntitoneOn Sw (Set.Ici (0 : ℝ)) := by
  have hdiff : ∀ w : ℝ, DifferentiableAt ℝ Sw w := fun w =>
    (Sw_hasDerivAt w).differentiableAt
  apply antitoneOn_of_deriv_nonpos (convex_Ici 0)
  · exact fun w _ => (hdiff w).continuousAt.continuousWithinAt
  · exact fun w _ => (hdiff w).differentiableWithinAt
  · intro w hw
    rw [interior_Ici] at hw
    rw [(Sw_hasDerivAt w).deriv]
    have hw0 : (0 : ℝ) < w := hw
    have hexp := (Real.exp_pos (-w)).le
    have : (0 : ℝ) ≤ Real.exp (-w) * (w + w ^ 2) / 3 := by positivity
    linarith

lemma Sw_pos (w : ℝ) (hw : 0 ≤ w) : 0 < Sw w := by
  have h : (0 : ℝ) < 1 + w + w ^ 2 / 3 := by positivity
  exact mul_pos (Real.exp_pos (-w)) h

lemma Sw_le_one (w : ℝ) (hw : 0 ≤ w) : Sw w ≤ 1 := by
  have := Sw_antitoneOn (Set.left_mem_Ici) (Set.mem_Ici.2 hw) hw
  rwa [Sw_zero] at this

/-! Reflection helpers shared by the symmetry and shape claims. -/

lemma density2D_neg (a R x y : ℝ) : density2D a R (-x) y = density2D a R x y := by
  simp only [density2D]
  have h1 : distance (-x - R / 2) y = distance (x + R / 2) y := by
    rw [show -x - R / 2 = -(x + R / 2) by ring, distance_neg_left]
  have h2 : distance (-x + R / 2) y = distance (x - R / 2) y := by
    rw [show -x + R / 2 = -(x - R / 2) by ring, distance_neg_left]
  rw [h1, h2]
  ring

lemma density1D_neg (a R x : ℝ) : density1D a R (-x) = density1D a R x := by
  simp only [density1D]
  have h1 : distance (-x - R / 2) 0 = distance (x + R / 2) 0 := by
    rw [show -x - R / 2 = -(x + R / 2) by ring, distance_neg_left]
  have h2 : distance (-x + R / 2) 0 = distance (x - R / 2) 0 := by
    rw [show -x + R / 2 = -(x - R / 2) by ring, distance_neg_left]
  rw [h1, h2]
  ring

lemma S_zero (a : ℝ) : S a 0 = 1 := by
  rw [S_eq]
  norm_num

lemma density1D_eq_amp_sq (a R x : ℝ) : density1D a R x = amp a R x ^ 2 := by
  simp only [density1D, amp, distance_zero_right]

lemma amp_pos (a R x : ℝ) : 0 < amp a R x := by
  have h1 := Real.exp_pos (-a * |x - R / 2|)
  have h2 := Real.exp_pos (-a * |x + R / 2|)
  simp only [amp]
  linarith

/-! The claim theorems. -/

/-- Claim C1: for alpha > 0, R ≥ 0 and non-empty coordinate ranges, the
normalized 2D evaluation returns at every grid point `(x, y)` the value
`alpha^3 / (pi * (1 + S(alpha, R))) * (exp(-alpha*ra) + exp(-alpha*rb))^2`
where `ra`, `rb` are the Euclidean distances to the nuclei at `(-R/2, 0)`
and `(+R/2, 0)`. -/
theorem evaluate2D_normalized_formula (a R : ℝ) (ha : 0 < a) (hR : 0 ≤ R)
    (xs ys : List ℝ) (hxs : xs ≠ []) (hys : ys ≠ []) :
    evaluate2D a R xs ys =
      ys.map (fun y => xs.map (fun x =>
        a ^ 3 / (Real.pi * (1 + S a R)) *
          (Real.exp (-a * Real.sqrt ((x - -(R / 2)) ^ 2 + (y - 0) ^ 2)) +
           Real.exp (-a * Real.sqrt ((x - R / 2) ^ 2 + (y - 0) ^ 2))) ^ 2)) := by
  simp only [evaluate2D, density2D, distance]
  congr 1
  funext y
  congr 1
  funext x
  rw [show x - -(R / 2) = x + R / 2 by ring, sub_zero]
  ring

/-- Witness for C1 at alpha = 1, R = 0, xRange = yRange = [0]. -/
theorem evaluate2D_normalized_formula_w :
    evaluate2D 1 0 [0] [0] =
      [(0 : ℝ)].map (fun y => [(0 : ℝ)].map (fun x =>
        (1 : ℝ) ^ 3 / (Real.pi * (1 + S 1 0)) *
          (Real.exp (-1 * Real.sqrt ((x - -(0 / 2)) ^ 2 + (y - 0) ^ 2)) +
           Real.exp (-1 * Real.sqrt ((x - 0 / 2) ^ 2 + (y - 0) ^ 2))) ^ 2)) :=
  evaluate2D_normalized_formula 1 0 one_pos le_rfl [0] [0]
    (by simp) (by simp)

/-- Claim C2: for alpha > 0, R ≥ 0 and a non-empty xRange, the 1D evaluation
returns, per x, the unnormalized squared amplitude
`(exp(-alpha*|x - R/2|) + exp(-alpha*|x + R/2|))^2`, with no `alpha^3/pi` or
`1/(1+S)` factor. -/
theorem evaluate1D_unnormalized_formula (a R : ℝ) (ha : 0 < a) (hR : 0 ≤ R)
    (xs : List ℝ) (hxs : xs ≠ []) :
    evaluate1D a R xs =
      xs.map (fun x =>
        (Real.exp (-a * |x - R / 2|) + Real.exp (-a * |x + R / 2|)) ^ 2) := by
  simp only [evaluate1D, density1D, distance_zero_right]

/-- Witness for C2 at alpha = 1, R = 0, xRange = [0]. -/
theorem evaluate1D_unnormalized_formula_w :
    evaluate1D 1 0 [0] =
      [(0 : ℝ)].map (fun x =>
        (Real.exp (-1 * |x - 0 / 2|) + Real.exp (-1 * |x + 0 / 2|)) ^ 2) :=
  evaluate1D_unnormalized_formula 1 0 one_pos le_rfl [0] (by simp)

/-- Counterexample to claim C3 as stated: at alpha = 1, R = 0 the overlap is
1, whereas the claimed formula `exp(-w) * (1 + w + (1/3)^2)` gives 10/9; the
third term in the code is `w^2/3`, not the constant `(1/3)^2`. -/
theorem S_claimed_constant_term_cex :
    ¬ (S 1 0 = Real.exp (-(1 * 0)) * (1 + 1 * 0 + ((1 : ℝ) / 3) ^ 2)) := by
  rw [S_eq]
  norm_num

/-- Claim C3 (amended): `S(alpha, R) = exp(-w) * (1 + w + w^2/3)` with
`w = alpha * R`; the third term inside the parenthesis is the quadratic
`w^2/3`, not a w-independent constant. -/
theorem S_quadratic_term (a R : ℝ) :
    S a R = Real.exp (-(a * R)) * (1 + a * R + (a * R) ^ 2 / 3) :=
  S_eq a R

/-- Claim C4: for every alpha > 0, the overlap at R = 0 is exactly 1. -/
theorem S_at_R_zero (a : ℝ) (ha : 0 < a) : S a 0 = 1 :=
  S_zero a

/-- Witness for C4 at the notebook's alpha = 1.24. -/
theorem S_at_R_zero_w : (0 : ℝ) < 1.24 ∧ S 1.24 0 = 1 :=
  ⟨by norm_num, S_at_R_zero 1.24 (by norm_num)⟩

/-- Claim C5: for alpha > 0 and R ≥ 0 the overlap satisfies
`0 < S(alpha, R) ≤ 1` and is monotonically non-increasing in R. -/
theorem S_bounds_and_antitone (a : ℝ) (ha : 0 < a) :
    (∀ R : ℝ, 0 ≤ R → 0 < S a R ∧ S a R ≤ 1) ∧
    ∀ R1 R2 : ℝ, 0 ≤ R1 → R1 ≤ R2 → S a R2 ≤ S a R1 := by
  constructor
  · intro R hR
    have hw : 0 ≤ a * R := mul_nonneg ha.le hR
    rw [S_eq_Sw]
    exact ⟨Sw_pos _ hw, Sw_le_one _ hw⟩
  · intro R1 R2 h1 h12
    have hw1 : 0 ≤ a * R1 := mul_nonneg ha.le h1
    have hw2 : 0 ≤ a * R2 := mul_nonneg ha.le (h1.trans h12)
    rw [S_eq_Sw, S_eq_Sw]
    exact Sw_antitoneOn (Set.mem_Ici.2 hw1) (Set.mem_Ici.2 hw2)
      (mul_le_mul_of_nonneg_left h12 ha.le)

/-- Witness for C5 at alpha = 1.24 with R = 1.4 and R = 2. -/
theorem S_bounds_and_antitone_w :
    (0 : ℝ) < 1.24 ∧ (0 < S 1.24 1.4 ∧ S 1.24 1.4 ≤ 1) ∧ S 1.24 2 ≤ S 1.24 1.4 :=
  ⟨by norm_num,
   (S_bounds_and_antitone 1.24 (by norm_num)).1 1.4 (by norm_num),
   (S_bounds_and_antitone 1.24 (by norm_num)).2 1.4 2 (by norm_num) (by norm_num)⟩

/-- Claim C6: the density field is symmetric under x ↦ -x, for the 2D grid
values and for the 1D cross-section. -/
theorem density_reflection_symmetry (a R : ℝ) :
    (∀ x y : ℝ, density2D a R (-x) y = density2D a R x y) ∧
    ∀ x : ℝ, density1D a R (-x) = density1D a R x :=
  ⟨fun x y => density2D_neg a R x y, fun x => density1D_neg a R x⟩

/-- Counterexample to claim C7 as stated: the code performs no parameter
validation at all.  A call of the overlap with the invalid alpha = -1 is not
rejected; it silently returns the numeric value `exp(1) * (1/3)`.  (In this
embedding a rejecting implementation would return an `Except`/`Option`
value; the source functions are total and always produce a number.) -/
theorem no_validation_cex : S (-1) 1 = Real.exp 1 * (1 / 3) := by
  rw [S_eq]
  norm_num

/-- Claim C7 (amended): no `InvalidParameter` check exists; the computations
are total, and a call with alpha ≤ 0 (or with an arbitrary range list, empty
or not increasing) is evaluated rather than rejected: the 1D evaluation
returns one value per supplied sample and the overlap returns its closed
form. -/
theorem no_validation (a R : ℝ) (ha : a ≤ 0) (xs : List ℝ) :
    (evaluate1D a R xs).length = xs.length ∧
    S a R = Real.exp (-(a * R)) * (1 + a * R + (a * R) ^ 2 / 3) :=
  ⟨by simp [evaluate1D], S_eq a R⟩

/-- Witness for C7 (amended) at alpha = -1, R = 1 and the empty range. -/
theorem no_validation_w :
    (-1 : ℝ) ≤ 0 ∧ (evaluate1D (-1) 1 []).length = ([] : List ℝ).length ∧
      S (-1) 1 = Real.exp (-((-1) * 1)) * (1 + (-1) * 1 + ((-1) * 1) ^ 2 / 3) :=
  ⟨by norm_num, no_validation (-1) 1 (by norm_num) []⟩

/-- Counterexample to claim C8 as stated: at R = 0 the 2D density along
y = 0 does not equal the bare `(2*exp(-alpha*|x|))^2`: at alpha = 1, x = 0
the 2D value is `2/pi` while the claimed value is 4. -/
theorem density2D_R_zero_cex :
    ¬ (density2D 1 0 0 0 = (2 * Real.exp (-(1 * |(0 : ℝ)|))) ^ 2) := by
  have hval : density2D 1 0 0 0 = 2 / Real.pi := by
    have h0 : distance (0 : ℝ) 0 = 0 := by
      simp [distance]
    simp only [density2D, S_zero]
    norm_num [h0, Real.exp_zero]
    ring
  rw [hval]
  intro h
  have h4 : (2 * Real.exp (-(1 * |(0 : ℝ)|))) ^ 2 = 4 := by
    norm_num [Real.exp_zero]
  rw [h4] at h
  have hpi := Real.pi_gt_three
  have hpos := Real.pi_pos
  have h2 : (2 : ℝ) = 4 * Real.pi := by
    field_simp at h
    linarith
  nlinarith

/-- Claim C8 (amended): at R = 0 the 1D evaluation reduces exactly to the
single peaked `(2*exp(-alpha*|x|))^2`, while the 2D evaluation along y = 0
reduces to the same peaked function scaled by the normalization prefactor
`alpha^3 / (2*pi)` (using S(alpha, 0) = 1). -/
theorem density_R_zero (a : ℝ) :
    (∀ x : ℝ, density1D a 0 x = (2 * Real.exp (-(a * |x|))) ^ 2) ∧
    ∀ x : ℝ, density2D a 0 x 0 =
      a ^ 3 / (2 * Real.pi) * (2 * Real.exp (-(a * |x|))) ^ 2 := by
  constructor
  · intro x
    simp only [density1D, distance_zero_right, neg_mul]
    norm_num
    ring
  · intro x
    simp only [density2D, S_zero, distance_zero_right, neg_mul]
    norm_num
    ring

/-- Claim C10: along y = 0 the 2D density is the 1D density multiplied by
the positive scalar prefactor `alpha^3 / (pi * (1 + S(alpha, R)))`. -/
theorem density2D_prefactor_of_density1D (a R : ℝ) (ha : 0 < a) (hR : 0 ≤ R) :
    (∀ x : ℝ, density2D a R x 0 =
      a ^ 3 / (Real.pi * (1 + S a R)) * density1D a R x) ∧
    0 < a ^ 3 / (Real.pi * (1 + S a R)) := by
  constructor
  · intro x
    simp only [density2D, density1D]
  · have hS : 0 < S a R := by
      rw [S_eq_Sw]
      exact Sw_pos _ (mul_nonneg ha.le hR)
    have hpi := Real.pi_pos
    have h1 : (0 : ℝ) < 1 + S a R := by linarith
    positivity

/-! Helpers for the concrete two-lobe scenario (alpha = 1.24, R = 1.4,
100 samples on [-2, 2]).  On `[-R/2, R/2]` the raw amplitude equals
`exp(-a*R/2) * (exp(a*x) + exp(-a*x))`, which grows with `|x|`; beyond
`R/2` it equals `exp(-a*x) * (exp(a*R/2) + exp(-a*R/2))`, which decays.
The only comparison crossing `x = R/2` (sample 66 at 2/3 versus sample 67
at 70/99) is settled by elementary exponential bounds. -/

lemma exp_add_exp_neg_lt (s t : ℝ) (hs : 0 ≤ s) (hst : s < t) :
    Real.exp s + Real.exp (-s) < Real.exp t + Real.exp (-t) := by
  have key : Real.exp (-s) - Real.exp (-t) =
      Real.exp (-(s + t)) * (Real.exp t - Real.exp s) := by
    rw [mul_sub, ← Real.exp_add, ← Real.exp_add]
    congr 2 <;> ring
  have h1 : Real.exp s < Real.exp t := Real.exp_lt_exp.2 hst
  have h2 : Real.exp (-(s + t)) < 1 := by
    have h := Real.exp_lt_exp.2 (show -(s + t) < 0 by linarith)
    rwa [Real.exp_zero] at h
  have h3 : 0 < (Real.exp t - Real.exp s) * (1 - Real.exp (-(s + t))) :=
    mul_pos (sub_pos.2 h1) (sub_pos.2 h2)
  nlinarith [key, h3]

lemma amp_lt_amp_inside (a R x1 x2 : ℝ) (ha : 0 < a) (h0 : 0 ≤ x1)
    (h12 : x1 < x2) (h2 : x2 ≤ R / 2) :
    amp a R x1 < amp a R x2 := by
  have hrw : ∀ x : ℝ, -(R / 2) ≤ x → x ≤ R / 2 → amp a R x =
      Real.exp (-(a * (R / 2))) * (Real.exp (a * x) + Real.exp (-(a * x))) := by
    intro x hx1 hx2
    simp only [amp]
    rw [abs_of_nonpos (by linarith), abs_of_nonneg (by linarith),
        show -a * -(x - R / 2) = a * x + -(a * (R / 2)) by ring,
        show -a * (x + R / 2) = -(a * x) + -(a * (R / 2)) by ring,
        Real.exp_add, Real.exp_add]
    ring
  rw [hrw x1 (by linarith) (by linarith), hrw x2 (by linarith) h2]
  have hmono := exp_add_exp_neg_lt (a * x1) (a * x2) (mul_nonneg ha.le h0)
    (mul_lt_mul_of_pos_left h12 ha)
  exact mul_lt_mul_of_pos_left hmono (Real.exp_pos _)

lemma amp_lt_amp_outside (a R x1 x2 : ℝ) (ha : 0 < a) (hR : 0 ≤ R)
    (h1 : R / 2 ≤ x1) (h12 : x1 < x2) :
    amp a R x2 < amp a R x1 := by
  have hrw : ∀ x : ℝ, R / 2 ≤ x → amp a R x =
      Real.exp (-(a * x)) * (Real.exp (a * (R / 2)) + Real.exp (-(a * (R / 2)))) := by
    intro x hx
    simp only [amp]
    rw [abs_of_nonneg (by linarith), abs_of_nonneg (by linarith),
        show -a * (x - R / 2) = a * (R / 2) + -(a * x) by ring,
        show -a * (x + R / 2) = -(a * (R / 2)) + -(a * x) by ring,
        Real.exp_add, Real.exp_add]
    ring
  rw [hrw x1 h1, hrw x2 (by linarith)]
  have hu : 0 < Real.exp (a * (R / 2)) + Real.exp (-(a * (R / 2))) := by positivity
  have hexp : Real.exp (-(a * x2)) < Real.exp (-(a * x1)) := by
    apply Real.exp_lt_exp.2
    have := mul_lt_mul_of_pos_left h12 ha
    linarith
  exact mul_lt_mul_of_pos_right hexp hu

lemma cross_ineq (t : ℝ) (h1 : 0 < t) (h2 : 40 ≤ 26 * Real.exp (1320 * t)) :
    Real.exp (-(33 * t)) + Real.exp (-(1353 * t)) <
      Real.exp (-(7 * t)) + Real.exp (-(1393 * t)) := by
  have e1 : Real.exp (-(7 * t)) = Real.exp (-(33 * t)) * Real.exp (26 * t) := by
    rw [← Real.exp_add]
    congr 1
    ring
  have e2 : Real.exp (-(1353 * t)) = Real.exp (-(1393 * t)) * Real.exp (40 * t) := by
    rw [← Real.exp_add]
    congr 1
    ring
  have e3 : Real.exp (-(33 * t)) = Real.exp (-(1353 * t)) * Real.exp (1320 * t) := by
    rw [← Real.exp_add]
    congr 1
    ring
  have h26 : 26 * t + 1 < Real.exp (26 * t) :=
    Real.add_one_lt_exp (by positivity)
  have h40 : Real.exp (40 * t) - 1 ≤ 40 * t * Real.exp (40 * t) := by
    have h := Real.add_one_le_exp (-(40 * t))
    have hp : (0 : ℝ) < Real.exp (40 * t) := Real.exp_pos _
    have hmul := mul_le_mul_of_nonneg_right h hp.le
    rw [← Real.exp_add] at hmul
    rw [show -(40 * t) + 40 * t = 0 by ring, Real.exp_zero] at hmul
    nlinarith
  have hA : 40 * Real.exp (-(1353 * t)) ≤ 26 * Real.exp (-(33 * t)) := by
    have hp := Real.exp_pos (-(1353 * t))
    calc 40 * Real.exp (-(1353 * t))
        ≤ 26 * Real.exp (1320 * t) * Real.exp (-(1353 * t)) := by nlinarith
      _ = 26 * Real.exp (-(33 * t)) := by rw [e3]; ring
  have hL : Real.exp (-(33 * t)) * (26 * t) <
      Real.exp (-(7 * t)) - Real.exp (-(33 * t)) := by
    rw [e1]
    have hp := Real.exp_pos (-(33 * t))
    nlinarith
  have hR2 : Real.exp (-(1353 * t)) - Real.exp (-(1393 * t)) ≤
      t * (26 * Real.exp (-(33 * t))) := by
    have hp := Real.exp_pos (-(1393 * t))
    have s1 : Real.exp (-(1353 * t)) - Real.exp (-(1393 * t)) =
        Real.exp (-(1393 * t)) * (Real.exp (40 * t) - 1) := by
      rw [e2]; ring
    have s2 : Real.exp (-(1393 * t)) * (Real.exp (40 * t) - 1) ≤
        Real.exp (-(1393 * t)) * (40 * t * Real.exp (40 * t)) :=
      mul_le_mul_of_nonneg_left h40 hp.le
    have s3 : Real.exp (-(1393 * t)) * (40 * t * Real.exp (40 * t)) =
        t * (40 * Real.exp (-(1353 * t))) := by
      rw [e2]; ring
    have s4 : t * (40 * Real.exp (-(1353 * t))) ≤
        t * (26 * Real.exp (-(33 * t))) :=
      mul_le_mul_of_nonneg_left hA h1.le
    linarith
  have heq : t * (26 * Real.exp (-(33 * t))) = Real.exp (-(33 * t)) * (26 * t) := by
    ring
  linarith

lemma amp_key_cross : amp 1.24 1.4 (2 / 3) < amp 1.24 1.4 (70 / 99) := by
  have ht0 : (0 : ℝ) < 31 / 24750 := by norm_num
  have e66 : amp 1.24 1.4 (2 / 3) =
      Real.exp (-(33 * (31 / 24750 : ℝ))) + Real.exp (-(1353 * (31 / 24750 : ℝ))) := by
    simp only [amp]
    rw [show (2 / 3 : ℝ) - 1.4 / 2 = -(1 / 30) by norm_num, abs_neg,
        abs_of_nonneg (by norm_num : (0 : ℝ) ≤ 1 / 30),
        show (2 / 3 : ℝ) + 1.4 / 2 = 41 / 30 by norm_num,
        abs_of_nonneg (by norm_num : (0 : ℝ) ≤ 41 / 30),
        show -(1.24 : ℝ) * (1 / 30) = -(33 * (31 / 24750 : ℝ)) by norm_num,
        show -(1.24 : ℝ) * (41 / 30) = -(1353 * (31 / 24750 : ℝ)) by norm_num]
  have e67 : amp 1.24 1.4 (70 / 99) =
      Real.exp (-(7 * (31 / 24750 : ℝ))) + Real.exp (-(1393 * (31 / 24750 : ℝ))) := by
    simp only [amp]
    rw [show (70 / 99 : ℝ) - 1.4 / 2 = 7 / 990 by norm_num,
        abs_of_nonneg (by norm_num : (0 : ℝ) ≤ 7 / 990),
        show (70 / 99 : ℝ) + 1.4 / 2 = 1393 / 990 by norm_num,
        abs_of_nonneg (by norm_num : (0 : ℝ) ≤ 1393 / 990),
        show -(1.24 : ℝ) * (7 / 990) = -(7 * (31 / 24750 : ℝ)) by norm_num,
        show -(1.24 : ℝ) * (1393 / 990) = -(1393 * (31 / 24750 : ℝ)) by norm_num]
  rw [e66, e67]
  apply cross_ineq _ ht0
  have h := Real.add_one_le_exp (1320 * (31 / 24750 : ℝ))
  nlinarith

lemma density1D_lt_of_amp_lt (a R x1 x2 : ℝ) (h : amp a R x1 < amp a R x2) :
    density1D a R x1 < density1D a R x2 := by
  rw [density1D_eq_amp_sq, density1D_eq_amp_sq]
  have h0 := amp_pos a R x1
  nlinarith

/-- Witness for C10 at alpha = 1.24, R = 0, x = 1. -/
theorem density2D_prefactor_of_density1D_w :
    (0 : ℝ) < 1.24 ∧
      density2D 1.24 0 1 0 =
        (1.24 : ℝ) ^ 3 / (Real.pi * (1 + S 1.24 0)) * density1D 1.24 0 1 ∧
      0 < (1.24 : ℝ) ^ 3 / (Real.pi * (1 + S 1.24 0)) :=
  ⟨by norm_num,
   (density2D_prefactor_of_density1D 1.24 0 (by norm_num) le_rfl).1 1,
   (density2D_prefactor_of_density1D 1.24 0 (by norm_num) le_rfl).2⟩

/-- Claim C9: with alpha = 1.24, R = 1.4 and x over the 100 evenly spaced
samples of [-2, 2], the 1D evaluation is the per-sample density at
`x_i = -2 + 4*i/99`; samples 67 (`x = 70/99 ≈ 0.707`) and 32
(`x = -70/99`) lie within one grid step of `±0.7` and are local maxima of
the sampled sequence, and sample 49 (`x = -2/99`, the sample nearest
`x = 0`, tied with sample 50) is a local minimum strictly below both
maxima. -/
theorem evaluate1D_two_lobed :
    (evaluate1D 1.24 1.4 (linspace (-2) 2 100) =
      (List.range 100).map (fun i => density1D 1.24 1.4 (-2 + 4 * (i : ℝ) / 99))) ∧
    |(-2 + 4 * 67 / 99 : ℝ) - 0.7| ≤ 4 / 99 ∧
    |(-2 + 4 * 32 / 99 : ℝ) + 0.7| ≤ 4 / 99 ∧
    |(-2 + 4 * 49 / 99 : ℝ)| ≤ 4 / 99 ∧
    density1D 1.24 1.4 (-2 + 4 * 66 / 99) < density1D 1.24 1.4 (-2 + 4 * 67 / 99) ∧
    density1D 1.24 1.4 (-2 + 4 * 68 / 99) < density1D 1.24 1.4 (-2 + 4 * 67 / 99) ∧
    density1D 1.24 1.4 (-2 + 4 * 31 / 99) < density1D 1.24 1.4 (-2 + 4 * 32 / 99) ∧
    density1D 1.24 1.4 (-2 + 4 * 33 / 99) < density1D 1.24 1.4 (-2 + 4 * 32 / 99) ∧
    density1D 1.24 1.4 (-2 + 4 * 49 / 99) ≤ density1D 1.24 1.4 (-2 + 4 * 48 / 99) ∧
    density1D 1.24 1.4 (-2 + 4 * 49 / 99) ≤ density1D 1.24 1.4 (-2 + 4 * 50 / 99) ∧
    density1D 1.24 1.4 (-2 + 4 * 49 / 99) < density1D 1.24 1.4 (-2 + 4 * 67 / 99) ∧
    density1D 1.24 1.4 (-2 + 4 * 49 / 99) < density1D 1.24 1.4 (-2 + 4 * 32 / 99) := by
  have hA : (0 : ℝ) < 1.24 := by norm_num
  have key67 : density1D 1.24 1.4 (2 / 3) < density1D 1.24 1.4 (70 / 99) :=
    density1D_lt_of_amp_lt _ _ _ _ amp_key_cross
  have key68 : density1D 1.24 1.4 (74 / 99) < density1D 1.24 1.4 (70 / 99) :=
    density1D_lt_of_amp_lt _ _ _ _
      (amp_lt_amp_outside 1.24 1.4 (70 / 99) (74 / 99) hA (by norm_num)
        (by norm_num) (by norm_num))
  have in1 : density1D 1.24 1.4 (2 / 99) < density1D 1.24 1.4 (2 / 33) :=
    density1D_lt_of_amp_lt _ _ _ _
      (amp_lt_amp_inside 1.24 1.4 (2 / 99) (2 / 33) hA (by norm_num)
        (by norm_num) (by norm_num))
  have in2 : density1D 1.24 1.4 (2 / 99) < density1D 1.24 1.4 (2 / 3) :=
    density1D_lt_of_amp_lt _ _ _ _
      (amp_lt_amp_inside 1.24 1.4 (2 / 99) (2 / 3) hA (by norm_num)
        (by norm_num) (by norm_num))
  have g31 : (-2 + 4 * 31 / 99 : ℝ) = -(74 / 99) := by norm_num
  have g32 : (-2 + 4 * 32 / 99 : ℝ) = -(70 / 99) := by norm_num
  have g33 : (-2 + 4 * 33 / 99 : ℝ) = -(2 / 3) := by norm_num
  have g48 : (-2 + 4 * 48 / 99 : ℝ) = -(2 / 33) := by norm_num
  have g49 : (-2 + 4 * 49 / 99 : ℝ) = -(2 / 99) := by norm_num
  have g50 : (-2 + 4 * 50 / 99 : ℝ) = 2 / 99 := by norm_num
  have g66 : (-2 + 4 * 66 / 99 : ℝ) = 2 / 3 := by norm_num
  have g67 : (-2 + 4 * 67 / 99 : ℝ) = 70 / 99 := by norm_num
  have g68 : (-2 + 4 * 68 / 99 : ℝ) = 74 / 99 := by norm_num
  refine ⟨?_, ?_, ?_, ?_, ?_, ?_, ?_, ?_, ?_, ?_, ?_, ?_⟩
  · simp only [evaluate1D, linspace, List.map_map]
    congr 1
    funext i
    simp only [Function.comp_apply]
    congr 1
    norm_num
  · rw [show ((-2 + 4 * 67 / 99 : ℝ) - 0.7) = 7 / 990 by norm_num,
        abs_of_nonneg (by norm_num : (0 : ℝ) ≤ 7 / 990)]
    norm_num
  · rw [show ((-2 + 4 * 32 / 99 : ℝ) + 0.7) = -(7 / 990) by norm_num, abs_neg,
        abs_of_nonneg (by norm_num : (0 : ℝ) ≤ 7 / 990)]
    norm_num
  · rw [g49, abs_neg, abs_of_nonneg (by norm_num : (0 : ℝ) ≤ 2 / 99)]
    norm_num
  · rw [g66, g67]
    exact key67
  · rw [g68, g67]
    exact key68
  · rw [g31, g32, density1D_neg, density1D_neg]
    exact key68
  · rw [g33, g32, density1D_neg, density1D_neg]
    exact key67
  · rw [g49, g48, density1D_neg, density1D_neg]
    exact in1.le
  · rw [g49, g50, density1D_neg]
  · rw [g49, g67, density1D_neg]
    exact in2.trans key67
  · rw [g49, g32, density1D_neg, density1D_neg]
    exact in2.trans key67

end H2
